import Mathlib

/-!
Verification development for the podcast-analytics chart repository.

The numeric core of the charts is embedded shallowly over ℚ (the source
computes with JavaScript numbers on small finite data; all claims under
proof concern exact arithmetic identities, guards and orderings, which
the rational embedding reflects faithfully).  Fallible JavaScript
operations (Array.prototype.reduce with no initial value, which throws a
TypeError on an empty array) are embedded as Option-valued functions,
with `none` standing for the throw.
-/

namespace PodData

/-- A scatter point as built in the components: `{ x, y, episode }`
  (the `title` field carried by SharesSubscribersScatter is irrelevant
  to every computation modelled here). -/
structure Pt where
  x : ℚ
  y : ℚ
  episode : Nat
deriving DecidableEq

/-- Result record `{ slope, intercept }` as returned by both regression helpers. -/
structure RegressionResult where
  slope : ℚ
  intercept : ℚ
deriving DecidableEq

/-- Source: `points.reduce((acc, p) => acc + p.x, 0)`. -/
def sumX (points : List Pt) : ℚ := points.foldl (fun acc p => acc + p.x) 0

/-- Source: `points.reduce((acc, p) => acc + p.y, 0)`. -/
def sumY (points : List Pt) : ℚ := points.foldl (fun acc p => acc + p.y) 0

/-- Source: `points.reduce((acc, p) => acc + p.x * p.y, 0)`. -/
def sumXY (points : List Pt) : ℚ := points.foldl (fun acc p => acc + p.x * p.y) 0

/-- Source: `points.reduce((acc, p) => acc + p.x * p.x, 0)`. -/
def sumXX (points : List Pt) : ℚ := points.foldl (fun acc p => acc + p.x * p.x) 0

/-- Function `regressionLine` from DurationCompletionScatter.jsx (lines 13-26):
  on a zero denominator it returns `{ slope: 0, intercept: 0 }`. -/
def regressionLine (points : List Pt) : RegressionResult :=
  let n : ℚ := points.length
  let sX := sumX points
  let sY := sumY points
  let sXY := sumXY points
  let sXX := sumXX points
  let denominator := n * sXX - sX * sX
  if denominator = 0 then ⟨0, 0⟩
  else
    let slope := (n * sXY - sX * sY) / denominator
    ⟨slope, (sY - slope * sX) / n⟩

/-- Function `calculateRegression` from SharesSubscribersScatter (part_001 lines
  114-127): on a zero denominator it returns
  `{ slope: 0, intercept: sumY / n || 0 }`; the `|| 0` turns the NaN of
  `0 / 0` (empty input) into `0`, modelled by the length guard. -/
def calculateRegression (points : List Pt) : RegressionResult :=
  let n : ℚ := points.length
  let sX := sumX points
  let sY := sumY points
  let sXY := sumXY points
  let sXX := sumXX points
  let denominator := n * sXX - sX * sX
  if denominator = 0 then ⟨0, if points.length = 0 then 0 else sY / n⟩
  else
    let slope := (n * sXY - sX * sY) / denominator
    ⟨slope, (sY - slope * sX) / n⟩

/-- Spec-side ordinary-least-squares slope, written with mathematical
  sums exactly as the spec states it:
  `slope = (n·ΣXY − ΣX·ΣY) / (n·ΣXX − (ΣX)²)`. -/
def olsSlopeSpec (points : List Pt) : ℚ :=
  ((points.length : ℚ) * (points.map (fun p => p.x * p.y)).sum
      - (points.map Pt.x).sum * (points.map Pt.y).sum) /
    ((points.length : ℚ) * (points.map (fun p => p.x * p.x)).sum
      - ((points.map Pt.x).sum) ^ 2)

/-- Spec-side intercept: `intercept = (ΣY − slope·ΣX) / n`. -/
def olsInterceptSpec (points : List Pt) : ℚ :=
  ((points.map Pt.y).sum - olsSlopeSpec points * (points.map Pt.x).sum) /
    (points.length : ℚ)

lemma foldl_add_eq_sum (f : Pt → ℚ) (c : ℚ) (l : List Pt) :
    l.foldl (fun acc p => acc + f p) c = c + (l.map f).sum := by
  induction l generalizing c with
  | nil => simp
  | cons p t ih => simp [ih, add_assoc]

lemma sumX_eq (points : List Pt) : sumX points = (points.map Pt.x).sum := by
  simpa using foldl_add_eq_sum Pt.x 0 points

lemma sumY_eq (points : List Pt) : sumY points = (points.map Pt.y).sum := by
  simpa using foldl_add_eq_sum Pt.y 0 points

lemma sumXY_eq (points : List Pt) :
    sumXY points = (points.map (fun p => p.x * p.y)).sum := by
  simpa using foldl_add_eq_sum (fun p => p.x * p.y) 0 points

lemma sumXX_eq (points : List Pt) :
    sumXX points = (points.map (fun p => p.x * p.x)).sum := by
  simpa using foldl_add_eq_sum (fun p => p.x * p.x) 0 points

/-- C1: for every point sequence with `n·ΣXX ≠ (ΣX)²`, both
  `regressionLine` (DurationCompletionScatter) and `calculateRegression`
  (SharesSubscribersScatter) return
  `slope = (n·ΣXY − ΣX·ΣY) / (n·ΣXX − (ΣX)²)` and
  `intercept = (ΣY − slope·ΣX) / n`, the sums ranging over the input. -/
theorem C1_ols_formula (points : List Pt)
    (h : (points.length : ℚ) * (points.map (fun p => p.x * p.x)).sum
        ≠ ((points.map Pt.x).sum) ^ 2) :
    regressionLine points = ⟨olsSlopeSpec points, olsInterceptSpec points⟩
    ∧ calculateRegression points
        = ⟨olsSlopeSpec points, olsInterceptSpec points⟩ := by
  have hden : (points.length : ℚ) * (points.map (fun p => p.x * p.x)).sum
      - (points.map Pt.x).sum * (points.map Pt.x).sum ≠ 0 := by
    intro hc
    apply h
    have hc' := sub_eq_zero.mp hc
    rw [hc']; ring
  constructor <;>
    · simp only [regressionLine, calculateRegression,
        sumX_eq, sumY_eq, sumXY_eq, sumXX_eq, if_neg hden,
        olsSlopeSpec, olsInterceptSpec]
      congr 1 <;> rw [pow_two]

/-- Two points with distinct x used to witness the non-degenerate case. -/
def ptsTwo : List Pt := [⟨1, 2, 1⟩, ⟨2, 4, 2⟩]

/-- Witness for C1 at the concrete input `ptsTwo`. -/
theorem C1_ols_formula_witness :
    ((ptsTwo.length : ℚ) * (ptsTwo.map (fun p => p.x * p.x)).sum
        ≠ ((ptsTwo.map Pt.x).sum) ^ 2)
    ∧ (regressionLine ptsTwo = ⟨olsSlopeSpec ptsTwo, olsInterceptSpec ptsTwo⟩
      ∧ calculateRegression ptsTwo
          = ⟨olsSlopeSpec ptsTwo, olsInterceptSpec ptsTwo⟩) :=
  ⟨by norm_num [ptsTwo], C1_ols_formula ptsTwo (by norm_num [ptsTwo])⟩

/-- C8: on the synthetic dataset (1,2), (2,4), (3,6) both regression
  helpers return slope exactly 2 and intercept exactly 0, matching the
  closed-form least-squares solution. -/
theorem C8_synthetic_line :
    regressionLine [⟨1, 2, 1⟩, ⟨2, 4, 2⟩, ⟨3, 6, 3⟩] = ⟨2, 0⟩
    ∧ calculateRegression [⟨1, 2, 1⟩, ⟨2, 4, 2⟩, ⟨3, 6, 3⟩] = ⟨2, 0⟩ := by
  constructor
  · simp [regressionLine, sumX, sumY, sumXY, sumXX]
    norm_num
  · simp [calculateRegression, sumX, sumY, sumXY, sumXX]
    norm_num

/-- The single point `{x: 1, y: 5}` from the spec's degenerate test. -/
def ptSingle : List Pt := [⟨1, 5, 1⟩]

/-- C2 counterexample: the single point `{x: 1, y: 5}` is degenerate
  (`n·ΣXX = (ΣX)²`), yet `regressionLine` returns intercept `0`, not the
  mean of the y values (`5`), so the claim fails on `regressionLine`. -/
theorem C2_counterexample :
    ((ptSingle.length : ℚ) * sumXX ptSingle = (sumX ptSingle) ^ 2)
    ∧ (regressionLine ptSingle).intercept
        ≠ sumY ptSingle / (ptSingle.length : ℚ) := by
  constructor
  · norm_num [ptSingle, sumXX, sumX]
  · simp [ptSingle, regressionLine, sumX, sumY, sumXY, sumXX]

/-- C2 (amended): on every degenerate sequence (`n·ΣXX = (ΣX)²`):
  `regressionLine` returns slope 0 and intercept 0, while
  `calculateRegression` returns slope 0 and intercept = mean of the y
  values (0 when n = 0); neither throws, and in particular both return
  slope 0 on `[]` and on `[{x:1, y:5}]`. -/
theorem C2_degenerate (points : List Pt)
    (h : (points.length : ℚ) * sumXX points = (sumX points) ^ 2) :
    regressionLine points = ⟨0, 0⟩
    ∧ calculateRegression points
        = ⟨0, if points.length = 0 then 0
              else sumY points / (points.length : ℚ)⟩ := by
  have hden : (points.length : ℚ) * sumXX points
      - sumX points * sumX points = 0 := by
    rw [← pow_two]
    exact sub_eq_zero.mpr h
  constructor
  · simp [regressionLine, hden]
  · simp [calculateRegression, hden]

/-- Witness for C2 (amended) at the concrete input `ptSingle`. -/
theorem C2_degenerate_witness :
    ((ptSingle.length : ℚ) * sumXX ptSingle = (sumX ptSingle) ^ 2)
    ∧ (regressionLine ptSingle = ⟨0, 0⟩
      ∧ calculateRegression ptSingle
          = ⟨0, if ptSingle.length = 0 then 0
                else sumY ptSingle / (ptSingle.length : ℚ)⟩) :=
  ⟨by norm_num [ptSingle, sumXX, sumX],
    C2_degenerate ptSingle (by norm_num [ptSingle, sumXX, sumX])⟩

/-- A data row as consumed by ListenerMixChart. -/
structure EpisodeRow where
  newListeners : ℚ
  returningListeners : ℚ
  listenersTotal : ℚ
deriving DecidableEq

/-- One element of `shareData` in ListenerMixChart. -/
structure ListenerShare where
  newShare : ℚ
  returningShare : ℚ
deriving DecidableEq

/-- Function `shareData` from ListenerMixChart.jsx (lines 21-24). -/
def shareData (data : List EpisodeRow) : List ListenerShare :=
  data.map (fun d =>
    ⟨if d.listenersTotal = 0 then 0 else d.newListeners / d.listenersTotal,
     if d.listenersTotal = 0 then 0 else d.returningListeners / d.listenersTotal⟩)

/-- C9: each row of `shareData` has both shares 0 when `listenersTotal`
  is 0, and otherwise carries the exact ratios (the equations
  `share * total = count` witness that zero denominators never occur). -/
theorem C9_shareData_guard (data : List EpisodeRow) (i : Nat) (d : EpisodeRow)
    (h : data[i]? = some d) :
    (d.listenersTotal = 0 → (shareData data)[i]? = some ⟨0, 0⟩)
    ∧ (d.listenersTotal ≠ 0 →
        ∃ s, (shareData data)[i]? = some s
          ∧ s.newShare * d.listenersTotal = d.newListeners
          ∧ s.returningShare * d.listenersTotal = d.returningListeners) := by
  have hm : (shareData data)[i]?
      = some ⟨if d.listenersTotal = 0 then 0
              else d.newListeners / d.listenersTotal,
            if d.listenersTotal = 0 then 0
              else d.returningListeners / d.listenersTotal⟩ := by
    simp [shareData, h]
  constructor
  · intro h0
    rw [hm]
    simp [h0]
  · intro hne
    refine ⟨_, hm, ?_, ?_⟩ <;>
      simp [if_neg hne, div_mul_cancel₀ _ hne]

/-- A concrete listener-mix row set used to witness C9. -/
def mixRows : List EpisodeRow := [⟨30, 70, 100⟩]

/-- Witness for C9 at the first row of `mixRows`. -/
theorem C9_shareData_guard_witness :
    (mixRows[0]? = some ⟨30, 70, 100⟩)
    ∧ (((⟨30, 70, 100⟩ : EpisodeRow).listenersTotal = 0 →
          (shareData mixRows)[0]? = some ⟨0, 0⟩)
      ∧ ((⟨30, 70, 100⟩ : EpisodeRow).listenersTotal ≠ 0 →
          ∃ s, (shareData mixRows)[0]? = some s
            ∧ s.newShare * (⟨30, 70, 100⟩ : EpisodeRow).listenersTotal
                = (⟨30, 70, 100⟩ : EpisodeRow).newListeners
            ∧ s.returningShare * (⟨30, 70, 100⟩ : EpisodeRow).listenersTotal
                = (⟨30, 70, 100⟩ : EpisodeRow).returningListeners)) :=
  ⟨rfl, C9_shareData_guard mixRows 0 ⟨30, 70, 100⟩ rfl⟩

/-- JavaScript `Array.prototype.reduce` with no initial value: on a non-empty array
  it folds the tail starting from the first element; on an empty array it
  throws a TypeError, modelled as `none`. -/
def reduceNoInit {α : Type} (f : α → α → α) : List α → Option α
  | [] => none
  | h :: t => some (t.foldl f h)

/-- Function `bestCompletion` from DurationCompletionScatter.jsx (lines 69-71):
  `points.reduce((best, point) => point.y > best.y ? point : best)`. -/
def bestCompletion (points : List Pt) : Option Pt :=
  reduceNoInit (fun best point => if point.y > best.y then point else best) points

/-- Function `topShare` from SharesSubscribersScatter (part_001 lines 151-153):
  `points.reduce((maxPoint, point) => point.x > maxPoint.x ? point : maxPoint)`. -/
def topShare (points : List Pt) : Option Pt :=
  reduceNoInit (fun maxPoint point => if point.x > maxPoint.x then point else maxPoint)
    points

/-- C6 counterexample: on the empty input sequence the highlight
  selections `bestCompletion` and `topShare` evaluate to the
  throw marker (`reduce` of an empty array with no initial value throws a
  TypeError), so the render does fail instead of normalizing to a safe
  default. -/
theorem C6_counterexample :
    bestCompletion [] = none ∧ topShare [] = none :=
  ⟨rfl, rfl⟩

/-- C6 (amended): the regression computations are total — in particular
  they return slope 0 and intercept 0 on the empty sequence — but the
  highlight selections are defined exactly on non-empty sequences and
  throw on the empty one. -/
theorem C6_totality (points : List Pt) :
    (bestCompletion points).isSome = !points.isEmpty
    ∧ (topShare points).isSome = !points.isEmpty
    ∧ regressionLine [] = ⟨0, 0⟩
    ∧ calculateRegression [] = ⟨0, 0⟩ := by
  refine ⟨?_, ?_, ?_, ?_⟩
  · cases points <;> rfl
  · cases points <;> rfl
  · simp [regressionLine, sumX, sumY, sumXY, sumXX]
  · simp [calculateRegression, sumX, sumY, sumXY, sumXX]

/-- The fold performed by both highlight `reduce`s, generic in the
  compared key: keep the accumulator unless the next element's key is
  strictly greater. -/
def argStepFold {α : Type} (key : α → ℚ) (a : α) (l : List α) : α :=
  l.foldl (fun b p => if key p > key b then p else b) a

lemma argStepFold_nil {α : Type} (key : α → ℚ) (a : α) :
    argStepFold key a [] = a := rfl

lemma argStepFold_cons {α : Type} (key : α → ℚ) (a q : α) (t : List α) :
    argStepFold key a (q :: t)
      = argStepFold key (if key q > key a then q else a) t := rfl

lemma argStepFold_le {α : Type} (key : α → ℚ) (a : α) (l : List α) :
    key a ≤ key (argStepFold key a l)
    ∧ ∀ p ∈ l, key p ≤ key (argStepFold key a l) := by
  induction l generalizing a with
  | nil => exact ⟨le_refl _, by simp⟩
  | cons q t ih =>
    rw [argStepFold_cons]
    have ih' := ih (if key q > key a then q else a)
    have haa : key a ≤ key (if key q > key a then q else a) := by
      by_cases hq : key q > key a
      · rw [if_pos hq]; exact le_of_lt hq
      · rw [if_neg hq]
    have hqa : key q ≤ key (if key q > key a then q else a) := by
      by_cases hq : key q > key a
      · rw [if_pos hq]
      · rw [if_neg hq]; exact le_of_not_lt hq
    refine ⟨le_trans haa ih'.1, ?_⟩
    intro p hp
    rcases List.mem_cons.mp hp with rfl | hpt
    · exact le_trans hqa ih'.1
    · exact ih'.2 p hpt

lemma argStepFold_first {α : Type} (key : α → ℚ) (a : α) (l : List α) :
    ∃ l₁ l₂, a :: l = l₁ ++ (argStepFold key a l) :: l₂
      ∧ ∀ p ∈ l₁, key p < key (argStepFold key a l) := by
  induction l generalizing a with
  | nil => exact ⟨[], [], rfl, by simp⟩
  | cons q t ih =>
    by_cases hq : key q > key a
    · have hrw : argStepFold key a (q :: t) = argStepFold key q t := by
        rw [argStepFold_cons, if_pos hq]
      obtain ⟨m₁, m₂, hm, hlt⟩ := ih q
      refine ⟨a :: m₁, m₂, ?_, ?_⟩
      · rw [hrw, List.cons_append, ← hm]
      · intro p hp
        rw [hrw]
        rcases List.mem_cons.mp hp with hpa | hpm
        · exact hpa ▸ lt_of_lt_of_le hq (argStepFold_le key q t).1
        · exact hlt p hpm
    · have hrw : argStepFold key a (q :: t) = argStepFold key a t := by
        rw [argStepFold_cons, if_neg hq]
      obtain ⟨m₁, m₂, hm, hlt⟩ := ih a
      cases m₁ with
      | nil =>
        have ha : a = argStepFold key a t ∧ t = m₂ := by simpa using hm
        refine ⟨[], q :: t, ?_, by simp⟩
        rw [hrw, ← ha.1, List.nil_append]
      | cons c m₁' =>
        have hac : a = c ∧ t = m₁' ++ argStepFold key a t :: m₂ := by
          simpa using hm
        have hka : key a < key (argStepFold key a t) := by
          apply hlt
          simp [hac.1]
        refine ⟨a :: q :: m₁', m₂, ?_, ?_⟩
        · rw [hrw]
          simp only [List.cons_append]
          rw [← hac.2]
        · intro p hp
          rw [hrw]
          rcases List.mem_cons.mp hp with hpa | hp'
          · exact hpa ▸ hka
          · rcases List.mem_cons.mp hp' with hpq | hpm
            · exact hpq ▸ lt_of_le_of_lt (le_of_not_lt hq) hka
            · exact hlt p (List.mem_cons_of_mem c hpm)

/-- C10: on every non-empty point sequence, `bestCompletion` returns a
  point whose y is greater than or equal to every point's y, `topShare`
  returns a point whose x is greater than or equal to every point's x,
  and in both cases ties resolve to the earliest such point: the list
  splits around the result with every earlier point strictly smaller on
  the compared key. -/
theorem C10_highlights (points : List Pt) (h : points ≠ []) :
    (∃ b, bestCompletion points = some b
      ∧ (∀ p ∈ points, p.y ≤ b.y)
      ∧ ∃ l₁ l₂, points = l₁ ++ b :: l₂ ∧ ∀ p ∈ l₁, p.y < b.y)
    ∧ (∃ m, topShare points = some m
      ∧ (∀ p ∈ points, p.x ≤ m.x)
      ∧ ∃ l₁ l₂, points = l₁ ++ m :: l₂ ∧ ∀ p ∈ l₁, p.x < m.x) := by
  obtain ⟨q, rest, rfl⟩ := List.exists_cons_of_ne_nil h
  constructor
  · refine ⟨argStepFold Pt.y q rest, rfl, ?_, argStepFold_first Pt.y q rest⟩
    intro p hp
    rcases List.mem_cons.mp hp with rfl | hpt
    · exact (argStepFold_le Pt.y p rest).1
    · exact (argStepFold_le Pt.y q rest).2 p hpt
  · refine ⟨argStepFold Pt.x q rest, rfl, ?_, argStepFold_first Pt.x q rest⟩
    intro p hp
    rcases List.mem_cons.mp hp with rfl | hpt
    · exact (argStepFold_le Pt.x p rest).1
    · exact (argStepFold_le Pt.x q rest).2 p hpt

/-- A concrete point list used to witness C10. -/
def ptsHighlight : List Pt := [⟨1, 2, 1⟩, ⟨3, 1, 2⟩]

/-- Witness for C10 at the concrete list `ptsHighlight`. -/
theorem C10_highlights_witness :
    (ptsHighlight ≠ [])
    ∧ ((∃ b, bestCompletion ptsHighlight = some b
        ∧ (∀ p ∈ ptsHighlight, p.y ≤ b.y)
        ∧ ∃ l₁ l₂, ptsHighlight = l₁ ++ b :: l₂ ∧ ∀ p ∈ l₁, p.y < b.y)
      ∧ (∃ m, topShare ptsHighlight = some m
        ∧ (∀ p ∈ ptsHighlight, p.x ≤ m.x)
        ∧ ∃ l₁ l₂, ptsHighlight = l₁ ++ m :: l₂ ∧ ∀ p ∈ l₁, p.x < m.x)) :=
  ⟨by simp [ptsHighlight], C10_highlights ptsHighlight (by simp [ptsHighlight])⟩

/-- Constant `chartDimensions.width` in DurationCompletionScatter.jsx. -/
def chartW : ℚ := 640

/-- Constant `chartDimensions.height` in DurationCompletionScatter.jsx. -/
def chartH : ℚ := 360

/-- Constant `chartDimensions.margin.top`. -/
def marginTop : ℚ := 24

/-- Constant `chartDimensions.margin.right`. -/
def marginRight : ℚ := 32

/-- Constant `chartDimensions.margin.bottom`. -/
def marginBottom : ℚ := 52

/-- Constant `chartDimensions.margin.left`. -/
def marginLeft : ℚ := 68

/-- Line 91 of DurationCompletionScatter.jsx:
  `tooltipWidth = Math.min(estimatedWidth, width - margin.left - margin.right)`. -/
def tooltipWidthClamp (estimatedWidth : ℚ) : ℚ :=
  min estimatedWidth (chartW - marginLeft - marginRight)

/-- The tooltip origin computation of DurationCompletionScatter.jsx
  (lines 94-106): start right-and-above the hovered point, flip left when
  the right edge would overflow, place below when the top would overflow,
  then clamp the origin with `Math.max(margin.left, x)` and
  `Math.max(margin.top - 4, y)`. -/
def tooltipPlace (pointX pointY tooltipW tooltipH : ℚ) : ℚ × ℚ :=
  let tx0 := pointX + 12
  let ty0 := pointY - tooltipH - 12
  let tx1 := if tx0 + tooltipW > chartW - marginRight
    then pointX - tooltipW - 12 else tx0
  let ty1 := if ty0 < marginTop then pointY + 12 else ty0
  (max marginLeft tx1, max (marginTop - 4) ty1)

/-- C5 counterexample: for the in-bounds point pixel (100, 24) and a box
  of size 150 × 284 (not exceeding the 540 × 284 inner area), the
  computed origin is (112, 36) and the box bottom edge reaches 320,
  overflowing the inner bound `height - margin.bottom = 308`; the box is
  not contained in the inner bounds. -/
theorem C5_counterexample :
    (150 : ℚ) ≤ chartW - marginLeft - marginRight
    ∧ (284 : ℚ) ≤ chartH - marginTop - marginBottom
    ∧ marginLeft ≤ 100 ∧ (100 : ℚ) ≤ chartW - marginRight
    ∧ marginTop ≤ 24 ∧ (24 : ℚ) ≤ chartH - marginBottom
    ∧ ¬ ((tooltipPlace 100 24 150 284).2 + 284 ≤ chartH - marginBottom) := by
  norm_num [tooltipPlace, chartW, chartH, marginTop, marginRight,
    marginBottom, marginLeft]

/-- C5 (amended): the placement follows the described try/flip/clamp
  order, and guarantees that the origin satisfies `x ≥ margin.left` and
  `y ≥ margin.top − 4`, and that whenever the hovered point's pixel x is
  within the right inner bound and the box width is at most the inner
  width (which the `Math.min` of line 91 enforces), the box's right edge
  stays within `width − margin.right`; containment of the bottom edge,
  and the exact top bound `margin.top`, are not guaranteed. -/
theorem C5_clamped_origin (px py w h : ℚ)
    (hw : w ≤ chartW - marginLeft - marginRight) :
    marginLeft ≤ (tooltipPlace px py w h).1
    ∧ marginTop - 4 ≤ (tooltipPlace px py w h).2
    ∧ (px ≤ chartW - marginRight →
        (tooltipPlace px py w h).1 + w ≤ chartW - marginRight) := by
  rw [chartW, marginLeft, marginRight] at hw
  simp only [tooltipPlace, chartW, chartH, marginTop, marginRight,
    marginBottom, marginLeft]
  refine ⟨le_max_left _ _, le_max_left _ _, ?_⟩
  intro hpx
  norm_num at hpx ⊢
  by_cases hflip : (608 : ℚ) < px + 12 + w
  · rw [if_pos hflip]
    rcases max_cases (68 : ℚ) (px - w - 12) with ⟨hmx, hcase⟩ | ⟨hmx, hcase⟩ <;>
      rw [hmx] <;> linarith
  · rw [if_neg hflip]
    rcases max_cases (68 : ℚ) (px + 12) with ⟨hmx, hcase⟩ | ⟨hmx, hcase⟩ <;>
      rw [hmx] <;> linarith

/-- Witness for C5 (amended) at the concrete input (100, 24, 150, 66). -/
theorem C5_clamped_origin_witness :
    ((150 : ℚ) ≤ chartW - marginLeft - marginRight)
    ∧ (marginLeft ≤ (tooltipPlace 100 24 150 66).1
      ∧ marginTop - 4 ≤ (tooltipPlace 100 24 150 66).2
      ∧ ((100 : ℚ) ≤ chartW - marginRight →
          (tooltipPlace 100 24 150 66).1 + 150 ≤ chartW - marginRight)) :=
  ⟨by norm_num [chartW, marginLeft, marginRight],
    C5_clamped_origin 100 24 150 66
      (by norm_num [chartW, marginLeft, marginRight])⟩

/-- Modelled from the spec: the configuration handed to `useZoomPan` in
  DurationCompletionScatter.jsx (lines 44-51) — base x/y domains and
  `maxZoom`.  The hook's own source (src/hooks/useZoomPan.js) is not
  among the provided files, so the controller below is embedded from the
  spec's §4.3 state machine. -/
structure ZoomCfg where
  baseX : ℚ × ℚ
  baseY : ℚ × ℚ
  maxZoom : ℚ

/-- Modelled from the spec: the `ZoomState` of §3 — current visible x/y
  domains and zoom level. -/
structure ZoomState where
  xDom : ℚ × ℚ
  yDom : ℚ × ℚ
  zoomLevel : ℚ

/-- Helper `clamp(v, lo, hi)`. -/
def clampQ (v lo hi : ℚ) : ℚ := max lo (min v hi)

/-- Modelled from the spec: clamp a window of width `w` whose low edge
  tries to sit at `lo` so that the window stays inside `base`. -/
def clampWindow (base : ℚ × ℚ) (lo w : ℚ) : ℚ × ℚ :=
  let lo' := clampQ lo base.1 (base.2 - w)
  (lo', lo' + w)

/-- Modelled from the spec: the initial controller state — zoom level 1
  and domains equal to the base domains. -/
def initState (cfg : ZoomCfg) : ZoomState :=
  ⟨cfg.baseX, cfg.baseY, 1⟩

/-- Modelled from the spec: (§4.3 Zoom transition) clamp the new zoom level to
  `[1, maxZoom]`, set the window width to `baseWidth / zoomLevel'`,
  re-center so the data value at relative pointer position `t` keeps its
  position (anchor-preserving), then clamp the window into the base
  domain. -/
def zoomStep (cfg : ZoomCfg) (s : ZoomState) (factor tx ty : ℚ) : ZoomState :=
  let zoomNext := clampQ (s.zoomLevel * factor) 1 cfg.maxZoom
  let newWindow := fun (base cur : ℚ × ℚ) (t : ℚ) =>
    let w' := (base.2 - base.1) / zoomNext
    let anchor := cur.1 + t * (cur.2 - cur.1)
    clampWindow base (anchor - t * w') w'
  ⟨newWindow cfg.baseX s.xDom tx, newWindow cfg.baseY s.yDom ty, zoomNext⟩

/-- Modelled from the spec: (§4.3 Pan transition) active only while zoom level
  exceeds 1; shift the window by the negated domain-space delta (the
  pixel drag divided by the scale factor) and clamp it into the base
  domain; width and zoom level are unchanged. -/
def panStep (cfg : ZoomCfg) (s : ZoomState) (dx dy : ℚ) : ZoomState :=
  if 1 < s.zoomLevel then
    ⟨clampWindow cfg.baseX (s.xDom.1 - dx) (s.xDom.2 - s.xDom.1),
     clampWindow cfg.baseY (s.yDom.1 - dy) (s.yDom.2 - s.yDom.1),
     s.zoomLevel⟩
  else s

/-- A user gesture fed to the controller. -/
inductive Gesture
  | zoomBy (factor tx ty : ℚ)
  | panBy (dx dy : ℚ)
  | reset

/-- One controller transition. -/
def applyGesture (cfg : ZoomCfg) (s : ZoomState) : Gesture → ZoomState
  | .zoomBy factor tx ty => zoomStep cfg s factor tx ty
  | .panBy dx dy => panStep cfg s dx dy
  | .reset => initState cfg

/-- Run a gesture sequence from the initial state. -/
def applyGestures (cfg : ZoomCfg) (gs : List Gesture) : ZoomState :=
  gs.foldl (applyGesture cfg) (initState cfg)

/-- The invariant claimed by C3: zoom level in `[1, maxZoom]`, visible
  domains sub-intervals of the base domains. -/
def ZoomInv (cfg : ZoomCfg) (s : ZoomState) : Prop :=
  1 ≤ s.zoomLevel ∧ s.zoomLevel ≤ cfg.maxZoom
  ∧ cfg.baseX.1 ≤ s.xDom.1 ∧ s.xDom.1 ≤ s.xDom.2 ∧ s.xDom.2 ≤ cfg.baseX.2
  ∧ cfg.baseY.1 ≤ s.yDom.1 ∧ s.yDom.1 ≤ s.yDom.2 ∧ s.yDom.2 ≤ cfg.baseY.2

lemma clampQ_mem (v lo hi : ℚ) (h : lo ≤ hi) :
    lo ≤ clampQ v lo hi ∧ clampQ v lo hi ≤ hi :=
  ⟨le_max_left _ _, max_le h (min_le_right _ _)⟩

lemma clampWindow_inside (base : ℚ × ℚ) (lo w : ℚ)
    (hw0 : 0 ≤ w) (hw : w ≤ base.2 - base.1) :
    base.1 ≤ (clampWindow base lo w).1
    ∧ (clampWindow base lo w).1 ≤ (clampWindow base lo w).2
    ∧ (clampWindow base lo w).2 ≤ base.2 := by
  simp only [clampWindow, clampQ]
  have hmax : max base.1 (min lo (base.2 - w)) ≤ base.2 - w :=
    max_le (by linarith) (min_le_right _ _)
  exact ⟨le_max_left _ _, le_add_of_nonneg_right hw0, by linarith⟩

lemma applyGesture_inv (cfg : ZoomCfg)
    (hx : cfg.baseX.1 ≤ cfg.baseX.2) (hy : cfg.baseY.1 ≤ cfg.baseY.2)
    (hz : 1 ≤ cfg.maxZoom) (s : ZoomState) (g : Gesture)
    (hs : ZoomInv cfg s) : ZoomInv cfg (applyGesture cfg s g) := by
  obtain ⟨h1, h2, h3, h4, h5, h6, h7, h8⟩ := hs
  cases g with
  | reset =>
    exact ⟨le_refl _, hz, le_refl _, hx, le_refl _, le_refl _, hy, le_refl _⟩
  | zoomBy factor tx ty =>
    have hzc := clampQ_mem (s.zoomLevel * factor) 1 cfg.maxZoom hz
    have hzpos : 0 < clampQ (s.zoomLevel * factor) 1 cfg.maxZoom :=
      lt_of_lt_of_le zero_lt_one hzc.1
    have hwx0 : 0 ≤ (cfg.baseX.2 - cfg.baseX.1)
        / clampQ (s.zoomLevel * factor) 1 cfg.maxZoom :=
      div_nonneg (by linarith) (le_of_lt hzpos)
    have hwx : (cfg.baseX.2 - cfg.baseX.1)
        / clampQ (s.zoomLevel * factor) 1 cfg.maxZoom
        ≤ cfg.baseX.2 - cfg.baseX.1 :=
      div_le_self (by linarith) hzc.1
    have hwy0 : 0 ≤ (cfg.baseY.2 - cfg.baseY.1)
        / clampQ (s.zoomLevel * factor) 1 cfg.maxZoom :=
      div_nonneg (by linarith) (le_of_lt hzpos)
    have hwy : (cfg.baseY.2 - cfg.baseY.1)
        / clampQ (s.zoomLevel * factor) 1 cfg.maxZoom
        ≤ cfg.baseY.2 - cfg.baseY.1 :=
      div_le_self (by linarith) hzc.1
    have hxw := clampWindow_inside cfg.baseX
      (s.xDom.1 + tx * (s.xDom.2 - s.xDom.1)
        - tx * ((cfg.baseX.2 - cfg.baseX.1)
          / clampQ (s.zoomLevel * factor) 1 cfg.maxZoom)) _ hwx0 hwx
    have hyw := clampWindow_inside cfg.baseY
      (s.yDom.1 + ty * (s.yDom.2 - s.yDom.1)
        - ty * ((cfg.baseY.2 - cfg.baseY.1)
          / clampQ (s.zoomLevel * factor) 1 cfg.maxZoom)) _ hwy0 hwy
    exact ⟨hzc.1, hzc.2, hxw.1, hxw.2.1, hxw.2.2, hyw.1, hyw.2.1, hyw.2.2⟩
  | panBy dx dy =>
    by_cases hzl : 1 < s.zoomLevel
    · have hxw := clampWindow_inside cfg.baseX (s.xDom.1 - dx)
        (s.xDom.2 - s.xDom.1) (by linarith) (by linarith)
      have hyw := clampWindow_inside cfg.baseY (s.yDom.1 - dy)
        (s.yDom.2 - s.yDom.1) (by linarith) (by linarith)
      simp only [applyGesture, panStep, if_pos hzl]
      exact ⟨h1, h2, hxw.1, hxw.2.1, hxw.2.2, hyw.1, hyw.2.1, hyw.2.2⟩
    · simp only [applyGesture, panStep, if_neg hzl]
      exact ⟨h1, h2, h3, h4, h5, h6, h7, h8⟩

lemma foldl_gestures_inv (cfg : ZoomCfg)
    (hx : cfg.baseX.1 ≤ cfg.baseX.2) (hy : cfg.baseY.1 ≤ cfg.baseY.2)
    (hz : 1 ≤ cfg.maxZoom) :
    ∀ (gs : List Gesture) (s : ZoomState), ZoomInv cfg s →
      ZoomInv cfg (gs.foldl (applyGesture cfg) s) := by
  intro gs
  induction gs with
  | nil => exact fun s hs => hs
  | cons g t ih =>
    exact fun s hs => ih _ (applyGesture_inv cfg hx hy hz s g hs)

/-- C3: for every finite sequence of zoom, pan and reset gestures
  applied from the initial state, the zoom level lies in `[1, maxZoom]`
  and the visible x/y domain windows are sub-intervals of the base
  domains. -/
theorem C3_zoom_pan_invariant (cfg : ZoomCfg)
    (hx : cfg.baseX.1 ≤ cfg.baseX.2) (hy : cfg.baseY.1 ≤ cfg.baseY.2)
    (hz : 1 ≤ cfg.maxZoom) (gs : List Gesture) :
    ZoomInv cfg (applyGestures cfg gs) :=
  foldl_gestures_inv cfg hx hy hz gs (initState cfg)
    ⟨le_refl _, hz, le_refl _, hx, le_refl _, le_refl _, hy, le_refl _⟩

/-- The chart's concrete configuration shape used to witness C3
  (domains like DurationCompletionScatter's, `maxZoom = 12`). -/
def zoomCfgDemo : ZoomCfg := ⟨(20, 60), (45/100, 95/100), 12⟩

/-- Witness for C3 at a concrete configuration and gesture sequence
  containing extreme repeated zooms and pans. -/
theorem C3_zoom_pan_invariant_witness :
    (zoomCfgDemo.baseX.1 ≤ zoomCfgDemo.baseX.2
      ∧ zoomCfgDemo.baseY.1 ≤ zoomCfgDemo.baseY.2
      ∧ 1 ≤ zoomCfgDemo.maxZoom)
    ∧ ZoomInv zoomCfgDemo (applyGestures zoomCfgDemo
        [Gesture.zoomBy 3 (1/2) (1/2), Gesture.panBy 5 (1/10),
         Gesture.zoomBy 100 1 0, Gesture.panBy (-1000) 1000,
         Gesture.reset, Gesture.zoomBy (1/2) 0 1]) :=
  ⟨⟨by norm_num [zoomCfgDemo], by norm_num [zoomCfgDemo],
      by norm_num [zoomCfgDemo]⟩,
    C3_zoom_pan_invariant zoomCfgDemo (by norm_num [zoomCfgDemo])
      (by norm_num [zoomCfgDemo]) (by norm_num [zoomCfgDemo]) _⟩

/-- C7: applying the reset transition after any gesture sequence yields
  zoom level 1 and x/y domains equal to the base domains. -/
theorem C7_reset_restores (cfg : ZoomCfg) (gs : List Gesture) :
    (applyGesture cfg (applyGestures cfg gs) Gesture.reset).zoomLevel = 1
    ∧ (applyGesture cfg (applyGestures cfg gs) Gesture.reset).xDom = cfg.baseX
    ∧ (applyGesture cfg (applyGestures cfg gs) Gesture.reset).yDom = cfg.baseY :=
  ⟨rfl, rfl, rfl⟩

end PodData
